import Mathlib

/-!
Shallow embedding of the Flex Video Generator frontend
(frontend/lib/types.ts, frontend/lib/utils.ts, frontend/lib/api.ts,
frontend/app/generate/page.tsx, frontend/app/audio/[id]/page.tsx),
together with the Generation Job state machine of the design document,
and proofs of the specification claims about them.
-/

/-- Embeds the union type `GenerationStatus` from frontend/lib/types.ts:
`type GenerationStatus = "pending" | "processing" | "completed" | "failed"`. -/
inductive GenerationStatus where
  | pending
  | processing
  | completed
  | failed
  deriving DecidableEq, Repr, Fintype

/-- String value of a `GenerationStatus`: the TypeScript union literal it embeds. -/
def GenerationStatus.toString : GenerationStatus → String
  | .pending => "pending"
  | .processing => "processing"
  | .completed => "completed"
  | .failed => "failed"

/-- Embeds `getStatusColor` from frontend/lib/utils.ts: a switch on the raw
status string, falling through to the gray default. -/
def getStatusColor (status : String) : String :=
  if status = "completed" then "text-green-600 bg-green-100"
  else if status = "processing" then "text-blue-600 bg-blue-100"
  else if status = "pending" then "text-yellow-600 bg-yellow-100"
  else if status = "failed" then "text-red-600 bg-red-100"
  else "text-gray-600 bg-gray-100"

/-- Embeds `getFlexIntensityLabel` from frontend/lib/utils.ts: a switch on the
numeric intensity, falling through to "Unknown". -/
def getFlexIntensityLabel (intensity : Int) : String :=
  if intensity = 1 then "Subtle"
  else if intensity = 2 then "Low"
  else if intensity = 3 then "Medium"
  else if intensity = 4 then "High"
  else if intensity = 5 then "Maximum"
  else "Unknown"

/-- Embeds `truncateText` from frontend/lib/utils.ts, with a JavaScript string
modelled as its list of characters (`text.length`, `text.slice(0, n)` and `+`
become `List.length`, `List.take` and `List.append`). -/
def truncateText (text : List Char) (maxLength : Nat) : List Char :=
  if text.length ≤ maxLength then text
  else text.take (maxLength - 3) ++ ['.', '.', '.']

/-- Embeds `String.prototype.padStart(targetLength, pad)` as used in
frontend/lib/utils.ts: prepend copies of the pad character until the string is
`targetLength` long (a no-op when it already is). -/
def padStart (s : String) (targetLength : Nat) (pad : Char) : String :=
  String.mk (List.replicate (targetLength - s.length) pad) ++ s

/-- Embeds `formatDuration` from frontend/lib/utils.ts. `ms` is a nonnegative
millisecond count; `Math.floor(x / k)` on nonnegative numbers is `Nat` division
and `${n}` is decimal `Nat.repr`. -/
def formatDuration (ms : Nat) : String :=
  let seconds := ms / 1000
  let minutes := seconds / 60
  let remainingSeconds := seconds % 60
  if minutes > 0 then
    Nat.repr minutes ++ ":" ++ padStart (Nat.repr remainingSeconds) 2 '0'
  else
    "0:" ++ padStart (Nat.repr remainingSeconds) 2 '0'

/-- Embeds the `type` field of `BeatTimestamp` from frontend/lib/types.ts:
`"intro" | "build" | "pre_drop" | "drop" | "sustain" | "outro"`. -/
inductive BeatType where
  | intro
  | build
  | pre_drop
  | drop
  | sustain
  | outro
  deriving DecidableEq, Repr

/-- Embeds `BeatTimestamp` from frontend/lib/types.ts. The optional fields
`notes?` and `recommended_clip_type?` become `Option String`. -/
structure BeatTimestamp where
  ms : Int
  type : BeatType
  intensity : Int
  duration_ms : Int
  notes : Option String
  recommended_clip_type : Option String
  deriving DecidableEq, Repr

/-- Ordering of beat timestamps used by the audio page's sort comparator
`(a, b) => a.ms - b.ms`: nondecreasing in `ms`. -/
def msLE (a b : BeatTimestamp) : Prop := a.ms ≤ b.ms

instance : DecidableRel msLE := fun a b => inferInstanceAs (Decidable (a.ms ≤ b.ms))

instance : IsTotal BeatTimestamp msLE := ⟨fun a b => Int.le_total a.ms b.ms⟩

instance : IsTrans BeatTimestamp msLE := ⟨fun _ _ _ h1 h2 => le_trans h1 h2⟩

/-- A timestamp list is in ascending `ms` order (the invariant the beat editor
maintains). -/
def SortedByMs (l : List BeatTimestamp) : Prop := l.Sorted msLE

instance (l : List BeatTimestamp) : Decidable (SortedByMs l) :=
  inferInstanceAs (Decidable (l.Sorted msLE))

/-- Embeds `Partial<BeatTimestamp>` as passed to `updateTimestamp` in
frontend/app/audio/[id]/page.tsx: each field is present (and overrides) or
absent (and the old value is kept). -/
structure BeatTimestampPatch where
  ms : Option Int
  type : Option BeatType
  intensity : Option Int
  duration_ms : Option Int
  notes : Option String
  recommended_clip_type : Option String
  deriving DecidableEq, Repr

/-- Embeds the object spread `{ ...ts, ...updates }`: fields present in the
patch override the timestamp's fields. -/
def applyPatch (ts : BeatTimestamp) (updates : BeatTimestampPatch) : BeatTimestamp :=
  { ms := updates.ms.getD ts.ms
    type := updates.type.getD ts.type
    intensity := updates.intensity.getD ts.intensity
    duration_ms := updates.duration_ms.getD ts.duration_ms
    notes := (updates.notes.map some).getD ts.notes
    recommended_clip_type := (updates.recommended_clip_type.map some).getD ts.recommended_clip_type }

/-- Embeds JavaScript `Math.round` on the audio position `currentTime` (a
nonintegral millisecond count, modelled as a rational): round half toward
positive infinity. -/
def jsRound (x : ℚ) : Int := Int.floor (x + 1 / 2)

/-- The literal `newTimestamp` object built in `addTimestamp`
(frontend/app/audio/[id]/page.tsx): the rounded position, the currently
selected type and intensity, `duration_ms: 3000`, `notes: ""` and
`recommended_clip_type: "lifestyle"`. -/
def newBeatTimestamp (ms : Int) (selectedType : BeatType) (selectedIntensity : Int) :
    BeatTimestamp :=
  { ms := ms
    type := selectedType
    intensity := selectedIntensity
    duration_ms := 3000
    notes := some ""
    recommended_clip_type := some "lifestyle" }

/-- Embeds `addTimestamp` from frontend/app/audio/[id]/page.tsx: round the
current position, return the list unchanged when `timestamps.find` sees an
existing timestamp within 100 ms, otherwise append the new timestamp and sort
by `ms` (JavaScript `sort((a, b) => a.ms - b.ms)` as insertion sort, which is
stable like the ECMAScript sort). -/
def addTimestamp (currentTime : ℚ) (selectedType : BeatType) (selectedIntensity : Int)
    (timestamps : List BeatTimestamp) : List BeatTimestamp :=
  let ms := jsRound currentTime
  match timestamps.find? (fun t => (t.ms - ms).natAbs < 100) with
  | some _ => timestamps
  | none =>
      List.insertionSort msLE (timestamps ++ [newBeatTimestamp ms selectedType selectedIntensity])

/-- Embeds `removeTimestamp` from frontend/app/audio/[id]/page.tsx:
`prev.filter((_, i) => i !== index)`, with the element index made explicit by
`List.enum`. -/
def removeTimestamp (index : Nat) (timestamps : List BeatTimestamp) : List BeatTimestamp :=
  (timestamps.enum.filter fun p => p.1 ≠ index).map Prod.snd

/-- Embeds `updateTimestamp` from frontend/app/audio/[id]/page.tsx:
`prev.map((ts, i) => (i === index ? { ...ts, ...updates } : ts))`. -/
def updateTimestamp (index : Nat) (updates : BeatTimestampPatch)
    (timestamps : List BeatTimestamp) : List BeatTimestamp :=
  timestamps.enum.map fun p => if p.1 = index then applyPatch p.2 updates else p.2

/-- Embeds `ClipSequenceItem` from frontend/lib/types.ts. -/
structure ClipSequenceItem where
  clip_id : String
  beat_segment : String
  start_ms : Int
  end_ms : Int
  reasoning : Option String
  deriving DecidableEq, Repr

/-- Embeds `Generation` from frontend/lib/types.ts. The untyped JSON objects
`caption_metadata` and `ai_reasoning` (`Record<string, unknown>`) are carried
by no operation modelled here and are left out. -/
structure Generation where
  id : String
  creator_id : String
  audio_id : String
  clip_sequence : List ClipSequenceItem
  caption : Option String
  output_path : Option String
  status : GenerationStatus
  error_message : Option String
  created_at : String
  completed_at : Option String
  deriving DecidableEq, Repr

/-- Embeds the `refetchInterval` callback of the `generationDetail` query in
frontend/app/generate/page.tsx:
`query.state.data?.status === "pending" || query.state.data?.status === "processing" ? 2000 : false`.
The query data is `Generation` or absent; the result `2000 | false` becomes
`Option Nat` with `none` for `false`. -/
def detailRefetchInterval (data : Option Generation) : Option Nat :=
  if data.map (fun g => g.status) = some GenerationStatus.pending ∨
      data.map (fun g => g.status) = some GenerationStatus.processing then
    some 2000
  else none

/-- Request issued by `ApiClient.regenerateCaption` in frontend/lib/api.ts:
a POST to `/generate/{id}/regenerate-caption` whose JSON body is
`{ keep_clips: keepClips }`. -/
structure RegenerateCaptionRequest where
  path : String
  keep_clips : Bool
  deriving DecidableEq, Repr

/-- Default of the `keepClips` parameter of `ApiClient.regenerateCaption`
(`keepClips: boolean = true`). -/
def regenerateCaptionDefaultKeepClips : Bool := true

/-- Embeds `ApiClient.regenerateCaption(id, keepClips)` from
frontend/lib/api.ts as the request it sends. -/
def regenerateCaption (id : String) (keepClips : Bool) : RegenerateCaptionRequest :=
  { path := "/generate/" ++ id ++ "/regenerate-caption"
    keep_clips := keepClips }

/-- Embeds the `mutationFn` of `regenerateCaptionMutation` in
frontend/app/generate/page.tsx: `(id: string) => api.regenerateCaption(id)`,
where the omitted second argument takes its declared default. -/
def regenerateCaptionMutationFn (id : String) : RegenerateCaptionRequest :=
  regenerateCaption id regenerateCaptionDefaultKeepClips

/-- Client-side state of the generate page that tracks the current generation:
`useState<string | null>(null)` in frontend/app/generate/page.tsx holds a job
id or null, never a job record. -/
structure GeneratePageState where
  currentGeneration : Option String
  deriving DecidableEq, Repr

/-- Embeds the recent-generations `onClick` handler
(`() => setCurrentGeneration(gen.id)`): selecting a recent generation stores
only that generation's id. -/
def selectRecentGeneration (gen : Generation) (_st : GeneratePageState) : GeneratePageState :=
  { currentGeneration := some gen.id }

/-- Embeds the `onSuccess` handler of `generateMutation`
(`setCurrentGeneration(data.id)`). -/
def onGenerateSuccess (data : Generation) (_st : GeneratePageState) : GeneratePageState :=
  { currentGeneration := some data.id }

/-- Embeds the `generationDetail` query of frontend/app/generate/page.tsx:
enabled only when `currentGeneration` is set, and then fetching
`api.getGeneration(currentGeneration)`. The server's `get` endpoint is an
abstract function from job id to snapshot. -/
def generationDetailQuery (get : String → Generation) (st : GeneratePageState) :
    Option Generation :=
  match st.currentGeneration with
  | some id => some (get id)
  | none => none

/-- Modelled from the spec: the Generation Job state-machine transitions of
design document §4.2 (`pending → processing → completed` or
`pending → processing → failed`). The backend that implements the Job
Orchestrator is not among the source files (only the frontend client is), so
the transition relation is taken from the specification's words. -/
inductive JobStep : GenerationStatus → GenerationStatus → Prop where
  | start : JobStep .pending .processing
  | complete : JobStep .processing .completed
  | fail : JobStep .processing .failed

/-- Terminal statuses of a Generation Job (`completed` or `failed`). -/
def Terminal (s : GenerationStatus) : Prop :=
  s = GenerationStatus.completed ∨ s = GenerationStatus.failed

/-- C2: `GenerationStatus` admits exactly the four values `pending`,
`processing`, `completed` and `failed`; `getStatusColor` maps the four status
strings to pairwise distinct non-default color classes and every other input
string to the default gray classes. -/
theorem generationStatus_getStatusColor_exhaustive :
    (∀ g : GenerationStatus,
      g = GenerationStatus.pending ∨ g = GenerationStatus.processing ∨
        g = GenerationStatus.completed ∨ g = GenerationStatus.failed) ∧
    (∀ g h : GenerationStatus, g ≠ h →
      getStatusColor g.toString ≠ getStatusColor h.toString) ∧
    (∀ g : GenerationStatus, getStatusColor g.toString ≠ "text-gray-600 bg-gray-100") ∧
    (∀ s : String, s ≠ "pending" → s ≠ "processing" → s ≠ "completed" → s ≠ "failed" →
      getStatusColor s = "text-gray-600 bg-gray-100") := by
  refine ⟨by decide, by decide, by decide, ?_⟩
  intro s h1 h2 h3 h4
  simp [getStatusColor, h1, h2, h3, h4]

/-- Witness for C2 at concrete inputs: `pending` and `failed` get distinct
colors, and the string "draft" falls through to the default. -/
theorem generationStatus_getStatusColor_exhaustive_witness :
    getStatusColor GenerationStatus.pending.toString ≠
      getStatusColor GenerationStatus.failed.toString ∧
    getStatusColor "draft" = "text-gray-600 bg-gray-100" :=
  ⟨generationStatus_getStatusColor_exhaustive.2.1 GenerationStatus.pending
      GenerationStatus.failed (by decide),
    generationStatus_getStatusColor_exhaustive.2.2.2 "draft" (by decide) (by decide)
      (by decide) (by decide)⟩

/-- C4: the generate page's detail query polls every 2000 ms exactly when the
snapshot's status is `pending` or `processing`, and stops polling (`false`,
here `none`) for every other status and when no snapshot is loaded. -/
theorem detailRefetchInterval_terminal :
    (∀ g : Generation,
      (detailRefetchInterval (some g) = some 2000 ↔
        g.status = GenerationStatus.pending ∨ g.status = GenerationStatus.processing) ∧
      (detailRefetchInterval (some g) = none ↔
        ¬(g.status = GenerationStatus.pending ∨ g.status = GenerationStatus.processing))) ∧
    detailRefetchInterval none = none := by
  constructor
  · intro g
    by_cases h : g.status = GenerationStatus.pending ∨ g.status = GenerationStatus.processing
    · simp [detailRefetchInterval, h]
    · simp [detailRefetchInterval, h]
  · simp [detailRefetchInterval]

/-- Witness for C4 at a concrete snapshot: a `completed` job yields no further
polling. -/
theorem detailRefetchInterval_terminal_witness :
    detailRefetchInterval (some
      { id := "j1", creator_id := "c1", audio_id := "a1", clip_sequence := [],
        caption := some "done", output_path := some "/storage/out.mp4",
        status := GenerationStatus.completed, error_message := none,
        created_at := "2024-01-01", completed_at := some "2024-01-01" }) = none :=
  (detailRefetchInterval_terminal.1 _).2.mpr (by decide)

/-- C5: `ApiClient.regenerateCaption(id, keepClips)` sends the body
`{keep_clips: keepClips}` with `keepClips` defaulting to `true`, and the
generate page's mutation invokes it with only the id, so every request it
issues carries `keep_clips = true`. -/
theorem regenerateCaption_keepClips_true :
    regenerateCaptionDefaultKeepClips = true ∧
    (∀ (id : String) (keepClips : Bool),
      regenerateCaption id keepClips =
        { path := "/generate/" ++ id ++ "/regenerate-caption", keep_clips := keepClips }) ∧
    (∀ id : String,
      regenerateCaptionMutationFn id = regenerateCaption id true ∧
      (regenerateCaptionMutationFn id).keep_clips = true) :=
  ⟨rfl, fun _ _ => rfl, fun _ => ⟨rfl, rfl⟩⟩

/-- C6: `getFlexIntensityLabel` is total, maps 1..5 to the five labels, and
reaches its "Unknown" fallback exactly on inputs outside 1..5. -/
theorem getFlexIntensityLabel_range :
    getFlexIntensityLabel 1 = "Subtle" ∧ getFlexIntensityLabel 2 = "Low" ∧
    getFlexIntensityLabel 3 = "Medium" ∧ getFlexIntensityLabel 4 = "High" ∧
    getFlexIntensityLabel 5 = "Maximum" ∧
    (∀ n : Int, 1 ≤ n → n ≤ 5 → getFlexIntensityLabel n ≠ "Unknown") ∧
    (∀ n : Int, n < 1 ∨ 5 < n → getFlexIntensityLabel n = "Unknown") := by
  refine ⟨by decide, by decide, by decide, by decide, by decide, ?_, ?_⟩
  · intro n h1 h2
    interval_cases n <;> decide
  · intro n h
    have e1 : ¬n = 1 := by omega
    have e2 : ¬n = 2 := by omega
    have e3 : ¬n = 3 := by omega
    have e4 : ¬n = 4 := by omega
    have e5 : ¬n = 5 := by omega
    simp [getFlexIntensityLabel, e1, e2, e3, e4, e5]

/-- Witness for C6 at concrete inputs: 3 is inside the range and avoids the
fallback, 0 is outside and reaches it. -/
theorem getFlexIntensityLabel_range_witness :
    getFlexIntensityLabel 3 ≠ "Unknown" ∧ getFlexIntensityLabel 0 = "Unknown" :=
  ⟨getFlexIntensityLabel_range.2.2.2.2.2.1 3 (by decide) (by decide),
    getFlexIntensityLabel_range.2.2.2.2.2.2 0 (Or.inl (by decide))⟩

/-- C7: selecting a recent generation (or a successful submission) stores only
that generation's id in the page state, and every job snapshot the page
displays is obtained by `getGeneration` applied to the cached id. -/
theorem currentGeneration_cached_id :
    ∀ (get : String → Generation) (st : GeneratePageState) (gen : Generation),
      (selectRecentGeneration gen st).currentGeneration = some gen.id ∧
      (onGenerateSuccess gen st).currentGeneration = some gen.id ∧
      generationDetailQuery get (selectRecentGeneration gen st) = some (get gen.id) ∧
      (∀ st2 : GeneratePageState,
        generationDetailQuery get st2 = st2.currentGeneration.map get) := by
  intro get st gen
  refine ⟨rfl, rfl, rfl, fun st2 => ?_⟩
  cases h : st2.currentGeneration <;> simp [generationDetailQuery, h]

/-- C8: with `maxLength ≥ 3`, `truncateText` returns the text unchanged when
it fits, and otherwise the first `maxLength - 3` characters followed by "...",
of length exactly `maxLength`; the result never exceeds `maxLength`. -/
theorem truncateText_length_le (text : List Char) (maxLength : Nat) (h : 3 ≤ maxLength) :
    (text.length ≤ maxLength → truncateText text maxLength = text) ∧
    (maxLength < text.length →
      truncateText text maxLength = text.take (maxLength - 3) ++ ['.', '.', '.'] ∧
      (truncateText text maxLength).length = maxLength) ∧
    (truncateText text maxLength).length ≤ maxLength := by
  by_cases hle : text.length ≤ maxLength
  · refine ⟨fun _ => by simp [truncateText, hle], fun hgt => absurd hle (by omega), ?_⟩
    simp [truncateText, hle]
  · have hgt : maxLength < text.length := by omega
    have e : truncateText text maxLength = text.take (maxLength - 3) ++ ['.', '.', '.'] := by
      simp [truncateText, hle]
    have hlen : (truncateText text maxLength).length = maxLength := by
      rw [e]
      simp [List.length_take]
      omega
    exact ⟨fun hc => absurd hc (by omega), fun _ => ⟨e, hlen⟩, by omega⟩

/-- Witness for C8 at a concrete input: truncating "abcde" to 4 characters
gives "a..." of length 4. -/
theorem truncateText_length_le_witness :
    truncateText ['a', 'b', 'c', 'd', 'e'] 4 = ['a', '.', '.', '.'] ∧
    (truncateText ['a', 'b', 'c', 'd', 'e'] 4).length ≤ 4 :=
  ⟨(((truncateText_length_le ['a', 'b', 'c', 'd', 'e'] 4 (by decide)).2.1
      (by decide)).1).trans (by decide),
    (truncateText_length_le ['a', 'b', 'c', 'd', 'e'] 4 (by decide)).2.2⟩

/-- C9: `formatDuration ms` is the decimal minutes `ms / 60000`, a colon, and
the seconds `ms / 1000 % 60` zero-padded to two digits (minutes part 0 when
`ms < 60000`), and minutes·60 + seconds recovers `ms / 1000` exactly. -/
theorem formatDuration_spec :
    ∀ ms : Nat,
      formatDuration ms =
        Nat.repr (ms / 60000) ++ ":" ++ padStart (Nat.repr (ms / 1000 % 60)) 2 '0' ∧
      (ms / 60000) * 60 + ms / 1000 % 60 = ms / 1000 := by
  intro ms
  refine ⟨?_, by omega⟩
  simp only [formatDuration]
  have hdd : ms / 1000 / 60 = ms / 60000 := by omega
  rw [hdd]
  by_cases h : ms / 60000 > 0
  · rw [if_pos h]
  · rw [if_neg h]
    have h0 : ms / 60000 = 0 := by omega
    rw [h0]
    rfl

/-- C1: once a job's status is terminal (`completed` or `failed`), every later
status in any sequence of states the job passes through — each step either
keeps the status or is a state-machine transition — is that same value. -/
theorem generationJob_status_monotonic :
    ∀ f : ℕ → GenerationStatus,
      (∀ k, f (k + 1) = f k ∨ JobStep (f k) (f (k + 1))) →
      ∀ n, Terminal (f n) → ∀ m, n ≤ m → f m = f n := by
  intro f hstep n hterm m hnm
  induction m, hnm using Nat.le_induction with
  | base => rfl
  | succ m hnm ih =>
    rcases hstep m with h | h
    · rw [h, ih]
    · exfalso
      rw [ih] at h
      rcases hterm with ht | ht <;> rw [ht] at h <;> cases h

/-- Witness for C1 at a concrete trace: the constant `completed` trace stays at
its step-0 value forever. -/
theorem generationJob_status_monotonic_witness :
    (fun _ : ℕ => GenerationStatus.completed) 3 =
      (fun _ : ℕ => GenerationStatus.completed) 0 :=
  generationJob_status_monotonic (fun _ => GenerationStatus.completed)
    (fun _ => Or.inl rfl) 0 (Or.inl rfl) 3 (by omega)

/-- C10: `addTimestamp` leaves the list unchanged when some recorded timestamp
is within 100 ms of the rounded current position; otherwise it adds exactly the
one new timestamp (selected type and intensity, `duration_ms` 3000, empty
notes, `recommended_clip_type` "lifestyle") and keeps every previously recorded
timestamp unmodified. -/
theorem addTimestamp_window :
    ∀ (currentTime : ℚ) (selectedType : BeatType) (selectedIntensity : Int)
      (timestamps : List BeatTimestamp),
      ((∃ t ∈ timestamps, (t.ms - jsRound currentTime).natAbs < 100) →
        addTimestamp currentTime selectedType selectedIntensity timestamps = timestamps) ∧
      ((∀ t ∈ timestamps, ¬(t.ms - jsRound currentTime).natAbs < 100) →
        (addTimestamp currentTime selectedType selectedIntensity timestamps).Perm
          (timestamps ++
            [newBeatTimestamp (jsRound currentTime) selectedType selectedIntensity])) := by
  intro ct sT sI ts
  constructor
  · rintro ⟨t, ht, hlt⟩
    cases hfind : ts.find? (fun u => (u.ms - jsRound ct).natAbs < 100) with
    | some u => simp [addTimestamp, hfind]
    | none =>
        exfalso
        have hnone := List.find?_eq_none.mp hfind t ht
        simp only [decide_eq_true_eq] at hnone
        exact hnone hlt
  · intro hall
    cases hfind : ts.find? (fun u => (u.ms - jsRound ct).natAbs < 100) with
    | some u =>
        exfalso
        have hmem := List.mem_of_find?_eq_some hfind
        have hpu := List.find?_some hfind
        simp only [decide_eq_true_eq] at hpu
        exact hall u hmem hpu
    | none =>
        simp only [addTimestamp, hfind]
        exact List.perm_insertionSort msLE _

/-- Witness for C10 at concrete inputs: adding at position 0 on a list that
already has a timestamp at 0 ms is a no-op, and adding to the empty list
yields exactly the new timestamp. -/
theorem addTimestamp_window_witness :
    addTimestamp 0 BeatType.drop 5 [newBeatTimestamp 0 BeatType.drop 5] =
      [newBeatTimestamp 0 BeatType.drop 5] ∧
    (addTimestamp 0 BeatType.drop 5 []).Perm
      [newBeatTimestamp (jsRound 0) BeatType.drop 5] := by
  have hj : jsRound 0 = 0 := by
    rw [jsRound]
    norm_num
  constructor
  · exact (addTimestamp_window 0 BeatType.drop 5 [newBeatTimestamp 0 BeatType.drop 5]).1
      ⟨newBeatTimestamp 0 BeatType.drop 5, by simp, by rw [hj]; decide⟩
  · exact (addTimestamp_window 0 BeatType.drop 5 []).2 (by simp)

/-- Helper for C3: dropping the entries whose index matches `idx` from an
index-annotated list and forgetting the indices yields a sublist of the
original list. -/
theorem enumFrom_filter_map_sublist (idx : Nat) :
    ∀ (l : List BeatTimestamp) (n : Nat),
      ((((List.enumFrom n l).filter fun p => p.1 ≠ idx).map Prod.snd)).Sublist l := by
  intro l
  induction l with
  | nil => intro n; simp
  | cons a l ih =>
      intro n
      by_cases h : n = idx
      · simpa [List.enumFrom, List.filter_cons, h] using (ih (n + 1)).cons a
      · simpa [List.enumFrom, List.filter_cons, h] using (ih (n + 1)).cons₂ a

/-- Helper for C3: a patch whose `ms` field is absent leaves the list of `ms`
values of an index-annotated map unchanged. -/
theorem enumFrom_update_map_ms (idx : Nat) (p : BeatTimestampPatch) (hp : p.ms = none) :
    ∀ (l : List BeatTimestamp) (n : Nat),
      (((List.enumFrom n l).map fun e => if e.1 = idx then applyPatch e.2 p else e.2).map
          fun t => t.ms) = l.map fun t => t.ms := by
  intro l
  induction l with
  | nil => intro n; rfl
  | cons a l ih =>
      intro n
      simp only [List.enumFrom, List.map_cons]
      rw [ih (n + 1)]
      congr 1
      by_cases h : n = idx
      · simp [h, applyPatch, hp]
      · simp [h]

/-- C3 (amended): for every ascending-by-`ms` timestamp list, `addTimestamp`
and `removeTimestamp` produce ascending lists, and `updateTimestamp` does too
provided the partial update does not set `ms` (as in the page, which only
patches `notes` and `duration_ms`); a patch that changes `ms` can break the
order. -/
theorem beatEditor_preserves_sorted :
    ∀ l : List BeatTimestamp, SortedByMs l →
      (∀ (currentTime : ℚ) (selectedType : BeatType) (selectedIntensity : Int),
        SortedByMs (addTimestamp currentTime selectedType selectedIntensity l)) ∧
      (∀ index : Nat, SortedByMs (removeTimestamp index l)) ∧
      (∀ (index : Nat) (updates : BeatTimestampPatch), updates.ms = none →
        SortedByMs (updateTimestamp index updates l)) := by
  intro l hl
  refine ⟨fun ct sT sI => ?_, fun idx => ?_, fun idx p hp => ?_⟩
  · cases hfind : l.find? (fun u => (u.ms - jsRound ct).natAbs < 100) with
    | some u =>
        have he : addTimestamp ct sT sI l = l := by simp [addTimestamp, hfind]
        rw [he]; exact hl
    | none =>
        simp only [addTimestamp, hfind]
        exact List.sorted_insertionSort msLE _
  · exact List.Pairwise.sublist (enumFrom_filter_map_sublist idx l 0) hl
  · have hmap : ((updateTimestamp idx p l).map fun t => t.ms) = l.map fun t => t.ms :=
      enumFrom_update_map_ms idx p hp l 0
    have h1 : (l.map fun t => t.ms).Pairwise (· ≤ ·) := List.pairwise_map.mpr hl
    have h2 : ((updateTimestamp idx p l).map fun t => t.ms).Pairwise (· ≤ ·) := by
      rw [hmap]; exact h1
    have h3 : (updateTimestamp idx p l).Pairwise fun a b => a.ms ≤ b.ms :=
      List.pairwise_map.mp h2
    exact h3

/-- Counterexample to C3 as stated: on the sorted list with timestamps at 0 ms
and 100 ms, merging the partial update `{ms: 200}` at index 0 — a legitimate
`Partial<BeatTimestamp>` — yields a list that is no longer in ascending `ms`
order. -/
theorem updateTimestamp_unsorted_counterexample :
    SortedByMs [newBeatTimestamp 0 BeatType.intro 1, newBeatTimestamp 100 BeatType.drop 5] ∧
    ¬SortedByMs (updateTimestamp 0 ⟨some 200, none, none, none, none, none⟩
      [newBeatTimestamp 0 BeatType.intro 1, newBeatTimestamp 100 BeatType.drop 5]) := by
  decide

/-- Witness for C3 at a concrete sorted list: add, remove and an ms-preserving
update all keep the list sorted. -/
theorem beatEditor_preserves_sorted_witness :
    SortedByMs (addTimestamp 500 BeatType.build 2
      [newBeatTimestamp 0 BeatType.intro 1, newBeatTimestamp 1000 BeatType.drop 5]) ∧
    SortedByMs (removeTimestamp 0
      [newBeatTimestamp 0 BeatType.intro 1, newBeatTimestamp 1000 BeatType.drop 5]) ∧
    SortedByMs (updateTimestamp 1 ⟨none, none, none, some 5000, some "edited", none⟩
      [newBeatTimestamp 0 BeatType.intro 1, newBeatTimestamp 1000 BeatType.drop 5]) := by
  have h := beatEditor_preserves_sorted
    [newBeatTimestamp 0 BeatType.intro 1, newBeatTimestamp 1000 BeatType.drop 5] (by decide)
  exact ⟨h.1 500 BeatType.build 2, h.2.1 0, h.2.2 1 ⟨none, none, none, some 5000, some "edited", none⟩ rfl⟩
